import Mathlib

/-!
Verification of the batched bulk-transfer orchestrator
(BatchTransactionManager, TransactionBuilder, TokenManager) of the
soldump repository, as a shallow embedding in Lean.

Conventions of the embedding:
* public keys, mints and account addresses are natural numbers;
* SOL amounts are rationals (the JS code computes with ordinary numbers);
* every RPC call of the ledger client is an oracle stored in a `Chain`
  environment, returning `Except String` the way the JS promise either
  resolves or rejects;
* the byte size of the serialized transaction is modelled by a fixed
  per-transaction overhead plus the byte sizes of the instructions; the
  sizes of the two variable instructions (associated-account creation and
  SPL transfer) are part of the `Chain` environment, the fixed-layout
  system-transfer and compute-budget instructions have constant sizes;
* fallible JS code (code that can throw) becomes `Except String`;
  try/catch becomes a `match` on the `Except` value.
-/

namespace Soldump

/-- Kinds of instructions the manager builds. -/
inductive InstrKind
  | createAssociatedTokenAccount
  | transfer
  | closeAccount
  | systemTransfer
  | computeBudgetPrice
  | computeBudgetLimit
deriving DecidableEq, Repr

/-- An instruction together with its serialized byte size. -/
structure Instr where
  kind : InstrKind
  size : ℕ
deriving DecidableEq, Repr

/-- An SPL token holding, as returned by TokenManager.getAllTokenData. -/
structure TokenAccount where
  mint : ℕ
  address : ℕ
  rawAmount : ℕ
deriving DecidableEq, Repr

/-- The ledger RPC surface consumed by the manager, plus the serialization
model for the two variable-size instructions. -/
structure Chain where
  getAllTokenData : Except String (ℚ × List TokenAccount)
  getAccountInfo : ℕ → Except String (Option Unit)
  getMinimumBalanceForRentExemption : Except String ℕ
  getLatestBlockhash : Except String ℕ
  ata : ℕ → ℕ → ℕ
  createInstrSize : ℕ → ℕ
  transferInstrSize : ℕ → ℕ

/-- Fixed per-transaction serialization overhead (signatures, header,
account table, blockhash) in the size model. -/
def TX_OVERHEAD : ℕ := 128

/-- Serialized size of a compute-budget set-unit-price instruction. -/
def CB_PRICE_SIZE : ℕ := 12

/-- Serialized size of a compute-budget set-unit-limit instruction. -/
def CB_LIMIT_SIZE : ℕ := 9

/-- Serialized size of a system-program SOL transfer instruction. -/
def SYS_TRANSFER_SIZE : ℕ := 52

/-- Byte length of the serialized transaction holding the given
instruction list. -/
def serializeLength (instructions : List Instr) : ℕ :=
  TX_OVERHEAD + (instructions.map Instr.size).sum

/-- ComputeBudgetProgram.setComputeUnitPrice. -/
def setComputeUnitPrice (_microLamports : ℕ) : Instr :=
  { kind := .computeBudgetPrice, size := CB_PRICE_SIZE }

/-- ComputeBudgetProgram.setComputeUnitLimit. -/
def setComputeUnitLimit (_units : ℤ) : Instr :=
  { kind := .computeBudgetLimit, size := CB_LIMIT_SIZE }

/-- TokenManager.getAssociatedTokenAddress: deterministic derivation of
the associated token address from mint and owner. -/
def getAssociatedTokenAddress (chain : Chain) (mint owner : ℕ) : ℕ :=
  chain.ata mint owner

/-- TokenManager.createAssociatedTokenAccountIdempotentInstruction. -/
def createAssociatedTokenAccountIdempotentInstruction (chain : Chain)
    (_payer _associatedToken _owner mint : ℕ) : Instr :=
  { kind := .createAssociatedTokenAccount, size := chain.createInstrSize mint }

/-- TokenManager.createTransferInstruction. -/
def createTransferInstruction (chain : Chain)
    (source _destination _owner : ℕ) (_amount : ℕ) : Instr :=
  { kind := .transfer, size := chain.transferInstrSize source }

/-- Result of TransactionBuilder.buildTransaction. -/
structure BuiltTx where
  transaction : List Instr
  tokenCount : ℕ
  solAmount : ℚ
deriving DecidableEq, Repr

/-- TransactionBuilder.validateTransactionSize: serializes the candidate
transaction and compares its length against the hard-coded 1200-byte
conservative limit. -/
def validateTransactionSize (instructions : List Instr) (_publicKey : ℕ) : Bool :=
  serializeLength instructions < 1200

/-- TransactionBuilder.buildTransaction: appends the SOL transfer
instruction when solTransferAmount is positive, throws when the size
validation fails, otherwise returns the compiled transaction. -/
def buildTransaction (transferInstructions : List Instr) (solTransferAmount : ℚ)
    (_block : ℕ) (publicKey : ℕ) (_destinationAddress : ℕ) : Except String BuiltTx :=
  let accounts := transferInstructions.length
  let bulk := transferInstructions ++
    (if solTransferAmount > 0 then
      [{ kind := .systemTransfer, size := SYS_TRANSFER_SIZE : Instr }]
     else [])
  if validateTransactionSize bulk publicKey then
    .ok { transaction := bulk, tokenCount := accounts, solAmount := solTransferAmount }
  else
    .error "Transaction too large"

/-- BatchTransactionManager._calculateComputeUnits. The instruction count
parameter is accepted but, as in the source, never read: the estimate is
driven by the token count alone. -/
def calculateComputeUnits (_instructionCount : ℕ) (tokenCount : ℕ) : ℤ :=
  let baseUnits : ℚ := 10000
  let totalUnits : ℚ :=
    if tokenCount = 1 then
      baseUnits + 34000
    else
      let scalingFactor : ℚ := min ((tokenCount : ℚ) * (1/10)) (3/10)
      let adjustedUnitsPerToken : ℚ := 34000 * (1 + scalingFactor)
      baseUnits + (tokenCount : ℚ) * adjustedUnitsPerToken
  let bufferMultiplier : ℚ :=
    if tokenCount > 10 then 2 else if tokenCount > 5 then 9/5 else 3/2
  let buffered : ℤ := ⌈totalUnits * bufferMultiplier⌉
  let minUnits : ℤ := max 50000 ((tokenCount : ℤ) * 40000)
  let maxUnits : ℤ := 1400000
  max minUnits (min maxUnits buffered)

/-- Batch kinds produced by the planner. -/
inductive BatchType
  | individual_token
  | sol_transfer
deriving DecidableEq, Repr

/-- A planned batch. Fields absent on the JS object (for example
computeUnits on the SOL batch) are modelled with `Option`. -/
structure Batch where
  type : BatchType
  transaction : Option (List Instr)
  instructions : List Instr
  accountsProcessed : ℕ
  computeUnits : Option ℤ
  batchIndex : Option ℕ
  mint : Option ℕ
  solAmount : Option ℚ
deriving DecidableEq, Repr

/-- BatchTransactionManager._checkAssociatedTokenAccountExists: a failing
ledger query is swallowed and reported as the account not existing. -/
def checkAssociatedTokenAccountExists (chain : Chain) (associatedTokenAccount : ℕ) : Bool :=
  match chain.getAccountInfo associatedTokenAccount with
  | .ok accountInfo => accountInfo.isSome
  | .error _ => false

/-- Result of the destination-account existence check inside the rent
loop. The source builds the address with getAssociatedTokenAddress but
omits await on that async call, so the check receives a pending promise,
the getAccountInfo query rejects on the non-address argument, and the
catch inside the check reports the account as missing: the check is
constantly false at this call site, for every holding and every chain. -/
def checkExistsOnPendingPromise : Bool := false

/-- BatchTransactionManager._calculateRentForAssociatedAccounts: counts
the holdings whose destination associated account the (broken, see
checkExistsOnPendingPromise) existence check reports missing - that is
all of them - and charges rent for each; on a failing rent query, falls
back to an estimate per token account. -/
def calculateRentForAssociatedAccounts (chain : Chain)
    (tokenAccounts : List TokenAccount) (_destinationPublicKey : ℕ) : ℚ :=
  match chain.getMinimumBalanceForRentExemption with
  | .ok rentExemptBalance =>
      let accountsToCreate :=
        (tokenAccounts.filter (fun _tokenAccount =>
          !checkExistsOnPendingPromise)).length
      ((rentExemptBalance * accountsToCreate : ℕ) : ℚ) / 1000000000
  | .error _ =>
      (203928 / 100000000 : ℚ) * tokenAccounts.length

/-- Compute units charged for a batch inside the fee estimator: the real
value when the field is present and truthy, 75000 otherwise. -/
def batchFeeComputeUnits (batch : Batch) : ℤ :=
  match batch.computeUnits with
  | some computeUnits => if computeUnits == 0 then 75000 else computeUnits
  | none => 75000

/-- BatchTransactionManager._calculateTotalTransactionFees: per batch with
a transaction, base fee plus compute-unit fee, in SOL. -/
def calculateTotalTransactionFees (batches : List Batch) : ℚ :=
  batches.foldl
    (fun totalFees batch =>
      match batch.transaction with
      | none => totalFees
      | some _ =>
          let baseFee : ℚ := 5 / 1000000
          let computeUnits : ℤ := batchFeeComputeUnits batch
          let microLamports : ℚ := 50000
          let computeFee : ℚ := ((computeUnits : ℚ) * microLamports) / 1000000000000000
          totalFees + (baseFee + computeFee))
    0

/-- BatchTransactionManager._createIndividualTokenBatch: at most one
create instruction (only when the destination associated account is
missing), always one transfer instruction, never a close instruction,
prefixed by the two compute-budget instructions. -/
def createIndividualTokenBatch (chain : Chain) (tokenAccount : TokenAccount)
    (fromPublicKey destinationPublicKey : ℕ) (block : ℕ) (batchIndex : ℕ) :
    Except String Batch :=
  let destinationTokenAccount :=
    getAssociatedTokenAddress chain tokenAccount.mint destinationPublicKey
  let accountExists := checkAssociatedTokenAccountExists chain destinationTokenAccount
  let createInstructions : List Instr :=
    if accountExists then []
    else [createAssociatedTokenAccountIdempotentInstruction chain
            fromPublicKey destinationTokenAccount destinationPublicKey tokenAccount.mint]
  let transferInstruction :=
    createTransferInstruction chain tokenAccount.address destinationTokenAccount
      fromPublicKey tokenAccount.rawAmount
  let instructions := createInstructions ++ [transferInstruction]
  let computeUnits := calculateComputeUnits instructions.length 1
  let instructionsWithComputeBudget :=
    setComputeUnitPrice 50000 :: setComputeUnitLimit computeUnits :: instructions
  match buildTransaction instructionsWithComputeBudget 0 block fromPublicKey
      destinationPublicKey with
  | .error e => .error e
  | .ok transactionResult =>
      .ok { type := .individual_token,
            transaction := some transactionResult.transaction,
            instructions := instructionsWithComputeBudget,
            accountsProcessed := 1,
            computeUnits := some computeUnits,
            batchIndex := some batchIndex,
            mint := some tokenAccount.mint,
            solAmount := none }

/-- Loop body of _createTokenBatchesOnly: one batch per token account,
a failing token is logged and skipped, the index advances regardless. -/
def createTokenBatchesGo (chain : Chain) (fromPublicKey destinationPublicKey block : ℕ) :
    List TokenAccount → ℕ → List Batch
  | [], _ => []
  | tokenAccount :: rest, i =>
      match createIndividualTokenBatch chain tokenAccount fromPublicKey
          destinationPublicKey block i with
      | .ok tokenBatch =>
          tokenBatch :: createTokenBatchesGo chain fromPublicKey destinationPublicKey
            block rest (i + 1)
      | .error _ =>
          createTokenBatchesGo chain fromPublicKey destinationPublicKey block rest (i + 1)

/-- BatchTransactionManager._createTokenBatchesOnly: fetches one blockhash
and builds an individual batch per token; the batchSize option is accepted
but the loop visits every token. -/
def createTokenBatchesOnly (chain : Chain) (tokenAccounts : List TokenAccount)
    (fromPublicKey destinationPublicKey : ℕ) (_batchSize : ℕ) :
    Except String (List Batch) :=
  match chain.getLatestBlockhash with
  | .error e => .error e
  | .ok block =>
      .ok (createTokenBatchesGo chain fromPublicKey destinationPublicKey block
        tokenAccounts 0)

/-- BatchTransactionManager._createSolTransferBatch. -/
def createSolTransferBatch (fromPublicKey : ℕ) (destinationAddress : ℕ)
    (solAmount : ℚ) (block : ℕ) : Except String Batch :=
  match buildTransaction [] solAmount block fromPublicKey destinationAddress with
  | .error e => .error e
  | .ok transactionResult =>
      .ok { type := .sol_transfer,
            transaction := some transactionResult.transaction,
            instructions := [],
            accountsProcessed := 0,
            computeUnits := none,
            batchIndex := none,
            mint := none,
            solAmount := some solAmount }

/-- Transfer options, with every field present (the shape of the
documented default options object). executeInSequence belongs to the
execution options read by executeBatchTransactions. -/
structure Options where
  addTxFailed : Bool
  batchSize : ℕ
  includeSol : Bool
  solReserveAmount : ℚ
  maxTransactionSize : ℕ
  executeInSequence : Bool
deriving DecidableEq, Repr

/-- The default options object of createBatchTransactions (addTxFailed
true, batchSize 1, includeSol true, solReserveAmount 0.01,
maxTransactionSize 1200), with the executeBatchTransactions default
executeInSequence false. -/
def defaultOptions : Options :=
  { addTxFailed := true, batchSize := 1, includeSol := true,
    solReserveAmount := 1/100, maxTransactionSize := 1200,
    executeInSequence := false }

/-- Result of createBatchTransactions. -/
structure CreateResult where
  batches : List Batch
  totalTokens : ℕ
  solToTransfer : ℚ
  totalTransactionFees : ℚ
deriving DecidableEq, Repr

/-- BatchTransactionManager.createBatchTransactions. The outer try/catch
rethrows every internal failure wrapped in a new message; the early return
for nothing-to-transfer reports zero batches and zero solToTransfer. When
addTxFailed is set, an extra individual token batch for tokenAccounts[0]
with batch index 1111111 is appended after the SOL batch (the declared
tokenFailedAddress constant is unused in the source). -/
def createBatchTransactions (chain : Chain) (fromPublicKey : ℕ)
    (destinationAddress : ℕ) (options : Options) : Except String CreateResult :=
  let body : Except String CreateResult :=
    match chain.getAllTokenData with
    | .error e => .error e
    | .ok (solBalance, tokenAccounts) =>
        if tokenAccounts.length = 0 ∧
            (options.includeSol = false ∨ solBalance ≤ options.solReserveAmount) then
          .ok { batches := [], totalTokens := 0, solToTransfer := 0,
                totalTransactionFees := 0 }
        else
          let destinationPublicKey := destinationAddress
          match createTokenBatchesOnly chain tokenAccounts fromPublicKey
              destinationPublicKey options.batchSize with
          | .error e => .error e
          | .ok tokenBatches =>
              let totalTokens := tokenAccounts.length
              let batches := if totalTokens > 0 then tokenBatches else []
              let tokenTransactionFees := calculateTotalTransactionFees tokenBatches
              let rentForAssociatedAccounts :=
                calculateRentForAssociatedAccounts chain tokenAccounts destinationPublicKey
              let availableSol := solBalance - options.solReserveAmount
              let solAfterTokenFees := availableSol - tokenTransactionFees
              let solAfterRent := solAfterTokenFees - rentForAssociatedAccounts
              let solToTransfer := max 0 solAfterRent
              match chain.getLatestBlockhash with
              | .error e => .error e
              | .ok block =>
                  let solStep : Except String (List Batch) :=
                    if options.includeSol = true ∧ solToTransfer > 0 then
                      if solToTransfer > 1/100 then
                        match createSolTransferBatch fromPublicKey destinationPublicKey
                            solToTransfer block with
                        | .error e => .error e
                        | .ok solBatch => .ok (batches ++ [solBatch])
                      else .ok batches
                    else .ok batches
                  match solStep with
                  | .error e => .error e
                  | .ok batchesWithSol =>
                      let failedStep : Except String (List Batch) :=
                        if options.addTxFailed = true then
                          match tokenAccounts.head? with
                          | some tokenAccount =>
                              match createIndividualTokenBatch chain tokenAccount
                                  fromPublicKey destinationPublicKey block 1111111 with
                              | .error e => .error e
                              | .ok failedTokenBatch =>
                                  .ok (batchesWithSol ++ [failedTokenBatch])
                          | none => .ok batchesWithSol
                        else .ok batchesWithSol
                      match failedStep with
                      | .error e => .error e
                      | .ok finalBatches =>
                          .ok { batches := finalBatches,
                                totalTokens := totalTokens,
                                solToTransfer := solToTransfer,
                                totalTransactionFees :=
                                  calculateTotalTransactionFees finalBatches }
  match body with
  | .error e => .error ("Failed to create batch transactions: " ++ e)
  | .ok r => .ok r

/-- Per-batch execution record. -/
structure ExecResult where
  batchIndex : ℕ
  batchType : BatchType
  success : Bool
  signature : Option String
  error : Option String
deriving DecidableEq, Repr

/-- Per-kind counters of the batch summary. -/
structure TypeCounts where
  count : ℕ
  successful : ℕ
  failed : ℕ
deriving DecidableEq, Repr

/-- BatchSummary: overall and per-kind counters derived from the per-batch
results. -/
structure BatchSummary where
  totalBatches : ℕ
  successfulBatches : ℕ
  failedBatches : ℕ
  batchTypes : List (BatchType × TypeCounts)
deriving DecidableEq, Repr

/-- One update step of the per-kind counter map. -/
def bumpTypeCounts (m : List (BatchType × TypeCounts)) (t : BatchType)
    (success : Bool) : List (BatchType × TypeCounts) :=
  match m with
  | [] =>
      [(t, { count := 1, successful := if success then 1 else 0,
             failed := if success then 0 else 1 })]
  | (t0, c) :: rest =>
      if t0 = t then
        (t0, { count := c.count + 1,
               successful := c.successful + (if success then 1 else 0),
               failed := c.failed + (if success then 0 else 1) }) :: rest
      else
        (t0, c) :: bumpTypeCounts rest t success

/-- BatchTransactionManager._createBatchSummary. -/
def createBatchSummary (batches : List Batch) (results : List ExecResult) :
    BatchSummary :=
  { totalBatches := batches.length,
    successfulBatches := (results.filter (fun r => r.success)).length,
    failedBatches := (results.filter (fun r => !r.success)).length,
    batchTypes :=
      (batches.zip results).foldl
        (fun m br => bumpTypeCounts m br.1.type br.2.success) [] }

/-- BatchTransactionManager._executeBatchesSequentially. The network
outcome of submitting and confirming the i-th signed transaction is the
oracle value dispatchOutcome i; a rejection is caught and recorded as a
failed result for that batch, and the loop continues. -/
def executeBatchesSequentially (batches : List Batch)
    (_signedTransactions : List (List Instr))
    (dispatchOutcome : ℕ → Except String String) : List ExecResult :=
  batches.enum.map (fun p =>
    match dispatchOutcome p.1 with
    | .ok signature =>
        { batchIndex := p.1, batchType := p.2.type, success := true,
          signature := some signature, error := none }
    | .error e =>
        { batchIndex := p.1, batchType := p.2.type, success := false,
          signature := none, error := some e })

/-- BatchTransactionManager._executeBatchesInParallel: Promise.all over
the per-batch submissions; each rejection is caught inside its own task,
and the aggregated array keeps the input order. -/
def executeBatchesInParallel (batches : List Batch)
    (_signedTransactions : List (List Instr))
    (dispatchOutcome : ℕ → Except String String) : List ExecResult :=
  batches.enum.map (fun p =>
    match dispatchOutcome p.1 with
    | .ok signature =>
        { batchIndex := p.1, batchType := p.2.type, success := true,
          signature := some signature, error := none }
    | .error e =>
        { batchIndex := p.1, batchType := p.2.type, success := false,
          signature := none, error := some e })

/-- Result of executeBatchTransactions. -/
structure ExecRunResult where
  success : Bool
  results : List ExecResult
  batchSummary : Option BatchSummary
deriving DecidableEq, Repr

/-- BatchTransactionManager.executeBatchTransactions: signs everything in
one call, dispatches sequentially or in parallel, and returns a value in
every case (its try/catch converts any internal failure, including a
wholesale signer rejection, into a success=false result). -/
def executeBatchTransactions (batches : List Batch)
    (signAllTransactions : List (Option (List Instr)) → Except String (List (List Instr)))
    (dispatchOutcome : ℕ → Except String String) (options : Options) : ExecRunResult :=
  if batches.length = 0 then
    { success := true, results := [], batchSummary := none }
  else
    let allTransactions := batches.map Batch.transaction
    match signAllTransactions allTransactions with
    | .error _ =>
        { success := false, results := [], batchSummary := none }
    | .ok signedTransactions =>
        let results :=
          if options.executeInSequence then
            executeBatchesSequentially batches signedTransactions dispatchOutcome
          else
            executeBatchesInParallel batches signedTransactions dispatchOutcome
        let successCount := (results.filter (fun r => r.success)).length
        let totalCount := batches.length
        { success := successCount == totalCount,
          results := results,
          batchSummary := some (createBatchSummary batches results) }

/-- Result of performBatchTransfer. -/
structure TransferRunResult where
  success : Bool
  results : List ExecResult
  batchSummary : Option BatchSummary
  batches : List Batch
  totalTokens : ℕ
  solToTransfer : ℚ
  totalTransactionFees : ℚ
deriving DecidableEq, Repr

/-- BatchTransactionManager.performBatchTransfer, the bulk-transfer entry
point: planning, then signing and execution. Its try/catch converts every
failure, including a planning failure, into a returned success=false
value; the Except error channel of the model is therefore never used. -/
def performBatchTransfer (chain : Chain) (fromPublicKey destinationAddress : ℕ)
    (signAllTransactions : List (Option (List Instr)) → Except String (List (List Instr)))
    (dispatchOutcome : ℕ → Except String String) (options : Options) :
    Except String TransferRunResult :=
  match createBatchTransactions chain fromPublicKey destinationAddress options with
  | .error _ =>
      .ok { success := false, results := [], batchSummary := none, batches := [],
            totalTokens := 0, solToTransfer := 0, totalTransactionFees := 0 }
  | .ok batchCreationResult =>
      if batchCreationResult.batches.length = 0 then
        .ok { success := true, results := [], batchSummary := none, batches := [],
              totalTokens := 0, solToTransfer := 0, totalTransactionFees := 0 }
      else
        let result := executeBatchTransactions batchCreationResult.batches
          signAllTransactions dispatchOutcome options
        .ok { success := result.success,
              results := result.results,
              batchSummary := result.batchSummary,
              batches := batchCreationResult.batches,
              totalTokens := batchCreationResult.totalTokens,
              solToTransfer := batchCreationResult.solToTransfer,
              totalTransactionFees := batchCreationResult.totalTransactionFees }

/-!
JavaScript number and options semantics, for the behavior of
createBatchTransactions when the caller passes a partial options object:
a default parameter value is used only when the argument is undefined, so
a partial object replaces the whole default object and the omitted fields
are undefined. Arithmetic on undefined yields NaN, comparisons involving
NaN or undefined are false, and Math.max propagates NaN.
-/

/-- A JavaScript number-or-undefined value. -/
inductive JsNum
  | undefined
  | nan
  | num (q : ℚ)
deriving DecidableEq, Repr

/-- JavaScript subtraction: undefined coerces to NaN, NaN propagates. -/
def JsNum.sub : JsNum → JsNum → JsNum
  | .num a, .num b => .num (a - b)
  | _, _ => .nan

/-- JavaScript strict-greater comparison: false unless both operands are
real numbers. -/
def JsNum.gt : JsNum → JsNum → Bool
  | .num a, .num b => decide (b < a)
  | _, _ => false

/-- JavaScript less-or-equal comparison: false unless both operands are
real numbers. -/
def JsNum.le : JsNum → JsNum → Bool
  | .num a, .num b => decide (a ≤ b)
  | _, _ => false

/-- Math.max(0, x): NaN when x is NaN or undefined. -/
def jsMathMax0 : JsNum → JsNum
  | .num q => .num (max 0 q)
  | _ => .nan

/-- An options object as passed by a JS caller: each field may be absent
(undefined on access). -/
structure JsOptions where
  addTxFailed : Option Bool
  batchSize : Option ℕ
  includeSol : Option Bool
  solReserveAmount : Option ℚ
  maxTransactionSize : Option ℕ
deriving DecidableEq, Repr

/-- The documented default options object of createBatchTransactions. -/
def jsDefaultOptions : JsOptions :=
  { addTxFailed := some true, batchSize := some 1, includeSol := some true,
    solReserveAmount := some (1/100), maxTransactionSize := some 1200 }

/-- JavaScript default-parameter resolution: the default object is used
only when the argument itself is undefined; any caller-passed object
replaces it wholesale. -/
def resolveOptionsArg : Option JsOptions → JsOptions
  | some options => options
  | none => jsDefaultOptions

/-- Reading a possibly-absent numeric field of an options object. -/
def jsField : Option ℚ → JsNum
  | some q => .num q
  | none => .undefined

/-- Truthiness of a possibly-absent boolean field. -/
def jsTruthy : Option Bool → Bool
  | some b => b
  | none => false

/-- Outcome of the SOL-sweep fragment of createBatchTransactions under
JavaScript semantics. -/
structure JsSweepOutcome where
  earlyReturn : Bool
  solToTransfer : JsNum
  solBatchEmitted : Bool
deriving DecidableEq, Repr

/-- The early-return test and SOL-sweep computation of
createBatchTransactions (lines 59 and 92 to 129 of the source), under
JavaScript number semantics, with the options argument resolved the way
a default parameter is. -/
def solSweepJs (solBalance tokenTransactionFees rentForAssociatedAccounts : ℚ)
    (tokenAccountsCount : ℕ) (optionsArg : Option JsOptions) : JsSweepOutcome :=
  let options := resolveOptionsArg optionsArg
  let includeSol := jsTruthy options.includeSol
  let solReserveAmount := jsField options.solReserveAmount
  let earlyReturn :=
    tokenAccountsCount == 0 &&
      (!includeSol || JsNum.le (.num solBalance) solReserveAmount)
  if earlyReturn then
    { earlyReturn := true, solToTransfer := .num 0, solBatchEmitted := false }
  else
    let availableSol := JsNum.sub (.num solBalance) solReserveAmount
    let solAfterTokenFees := JsNum.sub availableSol (.num tokenTransactionFees)
    let solAfterRent := JsNum.sub solAfterTokenFees (.num rentForAssociatedAccounts)
    let solToTransfer := jsMathMax0 solAfterRent
    let solBatchEmitted :=
      includeSol && JsNum.gt solToTransfer (.num 0) &&
        JsNum.gt solToTransfer (.num (1/100))
    { earlyReturn := false, solToTransfer := solToTransfer,
      solBatchEmitted := solBatchEmitted }

/-!
Helper predicates and structural lemmas.
-/

/-- Whether an Except value is a success. -/
def isOkE {α : Type} : Except String α → Bool
  | .ok _ => true
  | .error _ => false

/-- Whether the individual batch of one token account can be built
(its instruction set passes the size validation); independent of the
blockhash and of the batch index. -/
def tokenBatchFits (chain : Chain) (tokenAccount : TokenAccount)
    (fromPublicKey destinationPublicKey : ℕ) : Bool :=
  isOkE (createIndividualTokenBatch chain tokenAccount fromPublicKey
    destinationPublicKey 0 0)

/-- Number of instructions of a given kind in a list. -/
def countKind (k : InstrKind) (instructions : List Instr) : ℕ :=
  (instructions.filter (fun ins => ins.kind == k)).length

/-- Whether a batch transaction, when present, serializes strictly below
the given byte bound. -/
def batchTxUnder (n : ℕ) (batch : Batch) : Bool :=
  match batch.transaction with
  | some tx => serializeLength tx < n
  | none => true

/-- Whether every batch of a planning result serializes strictly below
the given byte bound. -/
def resBatchesUnder (n : ℕ) : Except String CreateResult → Bool
  | .ok r => r.batches.all (batchTxUnder n)
  | .error _ => true

lemma exists_ok_of_isOkE {α : Type} {x : Except String α} (h : isOkE x = true) :
    ∃ a, x = .ok a := by
  cases x with
  | ok a => exact ⟨a, rfl⟩
  | error e => simp [isOkE] at h

lemma buildTransaction_ok {l : List Instr} {s : ℚ} {blk p d : ℕ} {tx : BuiltTx}
    (h : buildTransaction l s blk p d = .ok tx) :
    serializeLength tx.transaction < 1200 := by
  unfold buildTransaction at h
  simp only [] at h
  split at h <;> split at h
  · rename_i hv
    injection h with h
    subst h
    simpa [validateTransactionSize] using hv
  · exact absurd h (by simp)
  · rename_i hv
    injection h with h
    subst h
    simpa [validateTransactionSize] using hv
  · exact absurd h (by simp)

lemma buildTransaction_block_irrel (l : List Instr) (s : ℚ) (blk blk' p d : ℕ) :
    buildTransaction l s blk p d = buildTransaction l s blk' p d := rfl

lemma createIndividualTokenBatch_ok_shape {chain : Chain} {ta : TokenAccount}
    {f d blk i : ℕ} {b : Batch}
    (h : createIndividualTokenBatch chain ta f d blk i = .ok b) :
    b.type = .individual_token ∧ b.mint = some ta.mint ∧ b.batchIndex = some i ∧
    countKind .createAssociatedTokenAccount b.instructions ≤ 1 ∧
    countKind .transfer b.instructions = 1 ∧
    countKind .closeAccount b.instructions = 0 ∧
    ∃ tx, b.transaction = some tx ∧ serializeLength tx < 1200 := by
  unfold createIndividualTokenBatch at h
  simp only [] at h
  split at h
  · exact absurd h (by simp)
  · rename_i tr htr
    injection h with h
    subst h
    refine ⟨rfl, rfl, rfl, ?_, ?_, ?_, tr.transaction, rfl, buildTransaction_ok htr⟩ <;>
      by_cases hex : checkAssociatedTokenAccountExists chain
        (getAssociatedTokenAddress chain ta.mint d) = true <;>
      simp [countKind, hex, setComputeUnitPrice, setComputeUnitLimit,
        createAssociatedTokenAccountIdempotentInstruction, createTransferInstruction,
        beq_iff_eq]

lemma createIndividualTokenBatch_isOkE_irrel (chain : Chain) (ta : TokenAccount)
    (f d blk i blk' i' : ℕ) :
    isOkE (createIndividualTokenBatch chain ta f d blk i) =
      isOkE (createIndividualTokenBatch chain ta f d blk' i') := by
  unfold createIndividualTokenBatch
  simp only []
  rw [buildTransaction_block_irrel _ _ blk blk' f d]
  split <;> rfl

lemma tokenBatchFits_iff (chain : Chain) (ta : TokenAccount) (f d blk i : ℕ) :
    tokenBatchFits chain ta f d = true ↔
      ∃ b, createIndividualTokenBatch chain ta f d blk i = .ok b := by
  unfold tokenBatchFits
  rw [createIndividualTokenBatch_isOkE_irrel chain ta f d 0 0 blk i]
  constructor
  · exact exists_ok_of_isOkE
  · rintro ⟨b, hb⟩
    simp [hb, isOkE]

lemma createTokenBatchesGo_mem {chain : Chain} {f d blk : ℕ}
    {accts : List TokenAccount} {i : ℕ} {b : Batch}
    (h : b ∈ createTokenBatchesGo chain f d blk accts i) :
    ∃ ta ∈ accts, ∃ j, createIndividualTokenBatch chain ta f d blk j = .ok b := by
  induction accts generalizing i with
  | nil => simp [createTokenBatchesGo] at h
  | cons ta rest ih =>
      rw [createTokenBatchesGo] at h
      split at h
      · rename_i tb htb
        rcases List.mem_cons.mp h with h | h
        · exact ⟨ta, by simp, i, h ▸ htb⟩
        · obtain ⟨ta', hmem, j, hj⟩ := ih h
          exact ⟨ta', by simp [hmem], j, hj⟩
      · obtain ⟨ta', hmem, j, hj⟩ := ih h
        exact ⟨ta', by simp [hmem], j, hj⟩

lemma createTokenBatchesGo_mints (chain : Chain) (f d blk : ℕ)
    (accts : List TokenAccount) (i : ℕ) :
    (createTokenBatchesGo chain f d blk accts i).map Batch.mint =
      (accts.filter (fun ta => tokenBatchFits chain ta f d)).map
        (fun ta => some ta.mint) := by
  induction accts generalizing i with
  | nil => simp [createTokenBatchesGo]
  | cons ta rest ih =>
      rw [createTokenBatchesGo]
      cases hfit : tokenBatchFits chain ta f d with
      | false =>
          cases hc : createIndividualTokenBatch chain ta f d blk i with
          | ok tb =>
              have hfit' := (tokenBatchFits_iff chain ta f d blk i).mpr ⟨tb, hc⟩
              rw [hfit] at hfit'
              exact absurd hfit' (by simp)
          | error e =>
              simp [List.filter_cons, hfit, ih (i + 1)]
      | true =>
          obtain ⟨b, hb⟩ := (tokenBatchFits_iff chain ta f d blk i).mp hfit
          rw [hb]
          simp [List.filter_cons, hfit, (createIndividualTokenBatch_ok_shape hb).2.1,
            ih (i + 1)]

lemma createTokenBatchesGo_length_allOk {chain : Chain} {f d blk : ℕ}
    {accts : List TokenAccount}
    (hfits : ∀ ta ∈ accts, tokenBatchFits chain ta f d = true) :
    (createTokenBatchesGo chain f d blk accts 0).length = accts.length := by
  have hmap := congrArg List.length (createTokenBatchesGo_mints chain f d blk accts 0)
  rw [List.length_map, List.length_map, List.filter_eq_self.mpr hfits] at hmap
  exact hmap

lemma createTokenBatchesGo_type {chain : Chain} {f d blk : ℕ}
    {accts : List TokenAccount} {i : ℕ} {b : Batch}
    (h : b ∈ createTokenBatchesGo chain f d blk accts i) :
    b.type = .individual_token := by
  obtain ⟨ta, _, j, hj⟩ := createTokenBatchesGo_mem h
  exact (createIndividualTokenBatch_ok_shape hj).1

lemma createSolTransferBatch_ok (f d : ℕ) (amt : ℚ) (blk : ℕ) :
    ∃ sb, createSolTransferBatch f d amt blk = .ok sb ∧
      sb.type = .sol_transfer ∧ sb.solAmount = some amt ∧
      ∃ tx, sb.transaction = some tx ∧ serializeLength tx < 1200 := by
  have hb : ∃ tx, buildTransaction [] amt blk f d = .ok tx ∧
      serializeLength tx.transaction < 1200 := by
    by_cases hpos : amt > 0
    · refine ⟨{ transaction := [{ kind := .systemTransfer, size := SYS_TRANSFER_SIZE }],
                tokenCount := 0, solAmount := amt }, ?_, ?_⟩
      · unfold buildTransaction
        simp [hpos, validateTransactionSize, serializeLength, SYS_TRANSFER_SIZE,
          TX_OVERHEAD]
      · simp [serializeLength, SYS_TRANSFER_SIZE, TX_OVERHEAD]
    · refine ⟨{ transaction := [], tokenCount := 0, solAmount := amt }, ?_, ?_⟩
      · unfold buildTransaction
        simp [hpos, validateTransactionSize, serializeLength, TX_OVERHEAD]
      · simp [serializeLength, TX_OVERHEAD]
  obtain ⟨tx, htx, hsz⟩ := hb
  refine ⟨{ type := .sol_transfer, transaction := some tx.transaction,
            instructions := [], accountsProcessed := 0, computeUnits := none,
            batchIndex := none, mint := none, solAmount := some amt },
          ?_, rfl, rfl, tx.transaction, rfl, hsz⟩
  unfold createSolTransferBatch
  rw [htx]

/-- Structural characterization of a successful createBatchTransactions
run: either the early nothing-to-transfer return fired, or the batch list
is the token batches followed by an optional SOL batch followed by the
optional addTxFailed diagnostic batch, with solToTransfer given by the
reserve-fee-rent formula. -/
lemma createBatchTransactions_ok_cases {chain : Chain} {f d : ℕ} {options : Options}
    {r : CreateResult}
    (h : createBatchTransactions chain f d options = .ok r) :
    (∃ solBalance accounts,
        chain.getAllTokenData = .ok (solBalance, accounts) ∧
        accounts.length = 0 ∧
        (options.includeSol = false ∨ solBalance ≤ options.solReserveAmount) ∧
        r = { batches := [], totalTokens := 0, solToTransfer := 0,
              totalTransactionFees := 0 }) ∨
    (∃ solBalance accounts block solPart failPart,
        chain.getAllTokenData = .ok (solBalance, accounts) ∧
        chain.getLatestBlockhash = .ok block ∧
        ¬ (accounts.length = 0 ∧
            (options.includeSol = false ∨ solBalance ≤ options.solReserveAmount)) ∧
        r.batches = createTokenBatchesGo chain f d block accounts 0 ++ solPart ++ failPart ∧
        r.totalTokens = accounts.length ∧
        r.solToTransfer = max 0 (solBalance - options.solReserveAmount
          - calculateTotalTransactionFees (createTokenBatchesGo chain f d block accounts 0)
          - calculateRentForAssociatedAccounts chain accounts d) ∧
        ((options.includeSol = true ∧ r.solToTransfer > 0 ∧ r.solToTransfer > 1/100) →
          ∃ sb, createSolTransferBatch f d r.solToTransfer block = .ok sb ∧
            solPart = [sb]) ∧
        (¬ (options.includeSol = true ∧ r.solToTransfer > 0 ∧ r.solToTransfer > 1/100) →
          solPart = []) ∧
        (options.addTxFailed = true →
          (accounts = [] ∧ failPart = []) ∨
          ∃ ta0 rest fb, accounts = ta0 :: rest ∧
            createIndividualTokenBatch chain ta0 f d block 1111111 = .ok fb ∧
            failPart = [fb]) ∧
        (options.addTxFailed = false → failPart = [])) := by
  unfold createBatchTransactions at h
  simp only [] at h
  cases hdata : chain.getAllTokenData with
  | error e =>
      rw [hdata] at h
      exact absurd h (by simp)
  | ok p =>
      obtain ⟨solBalance, accounts⟩ := p
      rw [hdata] at h
      simp only [] at h
      by_cases hearly : accounts.length = 0 ∧
          (options.includeSol = false ∨ solBalance ≤ options.solReserveAmount)
      · rw [if_pos hearly] at h
        simp only [] at h
        injection h with h
        exact Or.inl ⟨solBalance, accounts, rfl, hearly.1, hearly.2, h.symm⟩
      · rw [if_neg hearly] at h
        cases hblk : chain.getLatestBlockhash with
        | error e =>
            unfold createTokenBatchesOnly at h
            rw [hblk] at h
            simp only [] at h
            exact absurd h (by simp)
        | ok block =>
            unfold createTokenBatchesOnly at h
            rw [hblk] at h
            simp only [] at h
            have hbif : (if accounts.length > 0 then
                createTokenBatchesGo chain f d block accounts 0
                else ([] : List Batch)) =
                createTokenBatchesGo chain f d block accounts 0 := by
              rcases accounts with _ | ⟨ta0, rest⟩
              · simp [createTokenBatchesGo]
              · simp
            rw [hbif] at h
            set stt := max 0 (solBalance - options.solReserveAmount
              - calculateTotalTransactionFees (createTokenBatchesGo chain f d block accounts 0)
              - calculateRentForAssociatedAccounts chain accounts d) with hstt
            by_cases hg1 : options.includeSol = true ∧ stt > 0
            · rw [if_pos hg1] at h
              by_cases hg2 : stt > 1/100
              · rw [if_pos hg2] at h
                obtain ⟨sb, hsb, hsbty, hsbam, htxsb⟩ :=
                  createSolTransferBatch_ok f d stt block
                rw [hsb] at h
                simp only [] at h
                by_cases haf : options.addTxFailed = true
                · rw [if_pos haf] at h
                  rcases accounts with _ | ⟨ta0, rest⟩
                  · simp only [List.head?] at h
                    injection h with h
                    subst h
                    refine Or.inr ⟨solBalance, [], block, [sb], [], rfl, rfl,
                      hearly, by simp, rfl, hstt,
                      fun _ => ⟨sb, hsb, rfl⟩,
                      fun hn => absurd ⟨hg1.1, hg1.2, hg2⟩ hn,
                      fun _ => Or.inl ⟨rfl, rfl⟩,
                      fun hf => absurd haf (by simp [hf])⟩
                  · simp only [List.head?] at h
                    cases hfb : createIndividualTokenBatch chain ta0 f d block 1111111 with
                    | error e =>
                        rw [hfb] at h
                        simp only [] at h
                        exact absurd h (by simp)
                    | ok fb =>
                        rw [hfb] at h
                        simp only [] at h
                        injection h with h
                        subst h
                        refine Or.inr ⟨solBalance, ta0 :: rest, block, [sb], [fb],
                          rfl, rfl, hearly, by simp, rfl, hstt,
                          fun _ => ⟨sb, hsb, rfl⟩,
                          fun hn => absurd ⟨hg1.1, hg1.2, hg2⟩ hn,
                          fun _ => Or.inr ⟨ta0, rest, fb, rfl, hfb, rfl⟩,
                          fun hf => absurd haf (by simp [hf])⟩
                · rw [if_neg haf] at h
                  simp only [] at h
                  injection h with h
                  subst h
                  refine Or.inr ⟨solBalance, accounts, block, [sb], [], rfl, rfl,
                    hearly, by simp, rfl, hstt,
                    fun _ => ⟨sb, hsb, rfl⟩,
                    fun hn => absurd ⟨hg1.1, hg1.2, hg2⟩ hn,
                    fun hf => absurd hf haf,
                    fun _ => rfl⟩
              · rw [if_neg hg2] at h
                simp only [] at h
                by_cases haf : options.addTxFailed = true
                · rw [if_pos haf] at h
                  rcases accounts with _ | ⟨ta0, rest⟩
                  · simp only [List.head?] at h
                    injection h with h
                    subst h
                    refine Or.inr ⟨solBalance, [], block, [], [], rfl, rfl,
                      hearly, by simp, rfl, hstt,
                      fun hgate => absurd hgate.2.2 hg2,
                      fun _ => rfl,
                      fun _ => Or.inl ⟨rfl, rfl⟩,
                      fun hf => absurd haf (by simp [hf])⟩
                  · simp only [List.head?] at h
                    cases hfb : createIndividualTokenBatch chain ta0 f d block 1111111 with
                    | error e =>
                        rw [hfb] at h
                        simp only [] at h
                        exact absurd h (by simp)
                    | ok fb =>
                        rw [hfb] at h
                        simp only [] at h
                        injection h with h
                        subst h
                        refine Or.inr ⟨solBalance, ta0 :: rest, block, [], [fb],
                          rfl, rfl, hearly, by simp, rfl, hstt,
                          fun hgate => absurd hgate.2.2 hg2,
                          fun _ => rfl,
                          fun _ => Or.inr ⟨ta0, rest, fb, rfl, hfb, rfl⟩,
                          fun hf => absurd haf (by simp [hf])⟩
                · rw [if_neg haf] at h
                  simp only [] at h
                  injection h with h
                  subst h
                  refine Or.inr ⟨solBalance, accounts, block, [], [], rfl, rfl,
                    hearly, by simp, rfl, hstt,
                    fun hgate => absurd hgate.2.2 hg2,
                    fun _ => rfl,
                    fun hf => absurd hf haf,
                    fun _ => rfl⟩
            · rw [if_neg hg1] at h
              simp only [] at h
              by_cases haf : options.addTxFailed = true
              · rw [if_pos haf] at h
                rcases accounts with _ | ⟨ta0, rest⟩
                · simp only [List.head?] at h
                  injection h with h
                  subst h
                  refine Or.inr ⟨solBalance, [], block, [], [], rfl, rfl,
                    hearly, by simp, rfl, hstt,
                    fun hgate => absurd ⟨hgate.1, hgate.2.1⟩ hg1,
                    fun _ => rfl,
                    fun _ => Or.inl ⟨rfl, rfl⟩,
                    fun hf => absurd haf (by simp [hf])⟩
                · simp only [List.head?] at h
                  cases hfb : createIndividualTokenBatch chain ta0 f d block 1111111 with
                  | error e =>
                      rw [hfb] at h
                      simp only [] at h
                      exact absurd h (by simp)
                  | ok fb =>
                      rw [hfb] at h
                      simp only [] at h
                      injection h with h
                      subst h
                      refine Or.inr ⟨solBalance, ta0 :: rest, block, [], [fb],
                        rfl, rfl, hearly, by simp, rfl, hstt,
                        fun hgate => absurd ⟨hgate.1, hgate.2.1⟩ hg1,
                        fun _ => rfl,
                        fun _ => Or.inr ⟨ta0, rest, fb, rfl, hfb, rfl⟩,
                        fun hf => absurd haf (by simp [hf])⟩
              · rw [if_neg haf] at h
                simp only [] at h
                injection h with h
                subst h
                refine Or.inr ⟨solBalance, accounts, block, [], [], rfl, rfl,
                  hearly, by simp, rfl, hstt,
                  fun hgate => absurd ⟨hgate.1, hgate.2.1⟩ hg1,
                  fun _ => rfl,
                  fun hf => absurd hf haf,
                  fun _ => rfl⟩

/-- The execution record expected for batch i given the dispatch outcome
of submission i. -/
def expectedExecResult (batch : Batch) (i : ℕ) (outcome : Except String String) :
    ExecResult :=
  match outcome with
  | .ok signature =>
      { batchIndex := i, batchType := batch.type, success := true,
        signature := some signature, error := none }
  | .error e =>
      { batchIndex := i, batchType := batch.type, success := false,
        signature := none, error := some e }

lemma executeBatchesSequentially_getElem (batches : List Batch)
    (signed : List (List Instr)) (o : ℕ → Except String String) (i : ℕ)
    (h : i < batches.length) :
    (executeBatchesSequentially batches signed o)[i]? =
      some (expectedExecResult batches[i] i (o i)) := by
  unfold executeBatchesSequentially
  rw [List.getElem?_map, List.getElem?_enum, List.getElem?_eq_getElem h]
  cases ho : o i <;> simp [expectedExecResult, ho]

lemma executeBatchesInParallel_getElem (batches : List Batch)
    (signed : List (List Instr)) (o : ℕ → Except String String) (i : ℕ)
    (h : i < batches.length) :
    (executeBatchesInParallel batches signed o)[i]? =
      some (expectedExecResult batches[i] i (o i)) := by
  unfold executeBatchesInParallel
  rw [List.getElem?_map, List.getElem?_enum, List.getElem?_eq_getElem h]
  cases ho : o i <;> simp [expectedExecResult, ho]

/-- A chain whose every query fails. -/
def failingChain : Chain :=
  { getAllTokenData := .error "rpc down",
    getAccountInfo := fun _ => .error "rpc down",
    getMinimumBalanceForRentExemption := .error "rpc down",
    getLatestBlockhash := .error "rpc down",
    ata := fun mint owner => mint * 1000 + owner,
    createInstrSize := fun _ => 120,
    transferInstrSize := fun _ => 80 }

/-- A sample batch for concrete execution runs. -/
def sampleBatch : Batch :=
  { type := .individual_token, transaction := some [], instructions := [],
    accountsProcessed := 1, computeUnits := some 66000, batchIndex := some 0,
    mint := some 1, solAmount := none }

/-- Claim C9: when the ledger query behind the destination-account
existence check fails, the check returns false (assume creation needed)
instead of propagating the error. -/
theorem C9_existence_check_degrades_to_false (chain : Chain) (address : ℕ)
    (e : String) (h : chain.getAccountInfo address = .error e) :
    checkAssociatedTokenAccountExists chain address = false := by
  unfold checkAssociatedTokenAccountExists
  rw [h]

/-- Witness for C9 at a concrete failing chain. -/
theorem C9_witness :
    failingChain.getAccountInfo 7 = .error "rpc down" ∧
    checkAssociatedTokenAccountExists failingChain 7 = false :=
  ⟨rfl, C9_existence_check_degrades_to_false failingChain 7 "rpc down" rfl⟩

/-- Claim C4 (amended): the compute-unit estimate is monotone (indeed
constant) in the instruction count, always at least 50000, at most
1400000 whenever the asset count is at most 35, and equal to
assetCount * 40000 from 36 assets on, where the lower clamp bound
exceeds the 1400000 cap. -/
theorem C4_computeUnits_monotone_bounded (i j tokenCount : ℕ) :
    (i ≤ j → calculateComputeUnits i tokenCount ≤ calculateComputeUnits j tokenCount) ∧
    50000 ≤ calculateComputeUnits i tokenCount ∧
    (tokenCount ≤ 35 → calculateComputeUnits i tokenCount ≤ 1400000) ∧
    (36 ≤ tokenCount →
      calculateComputeUnits i tokenCount = ((tokenCount : ℕ) : ℤ) * 40000) := by
  refine ⟨fun _ => le_of_eq rfl, ?_, ?_, ?_⟩
  · unfold calculateComputeUnits
    simp only []
    exact le_trans (le_max_left _ _) (le_max_left _ _)
  · intro h35
    unfold calculateComputeUnits
    simp only []
    apply max_le
    · apply max_le
      · norm_num
      · have hc : ((tokenCount : ℕ) : ℤ) ≤ 35 := by exact_mod_cast h35
        nlinarith
    · exact le_trans (min_le_left _ _) (by norm_num)
  · intro h36
    unfold calculateComputeUnits
    simp only []
    have hc : (36 : ℤ) ≤ ((tokenCount : ℕ) : ℤ) := by exact_mod_cast h36
    rw [max_eq_right (by nlinarith : (50000 : ℤ) ≤ ((tokenCount : ℕ) : ℤ) * 40000)]
    exact max_eq_left (le_trans (min_le_left _ _) (by nlinarith))

/-- Concrete value of the estimate at 36 assets. -/
lemma computeUnits_at_36 : calculateComputeUnits 3 36 = 1440000 := by
  unfold calculateComputeUnits
  simp only []
  rw [if_neg (by norm_num), if_pos (by norm_num)]
  have h1 : min (((36 : ℕ) : ℚ) * (1/10)) (3/10) = 3/10 := by
    rw [min_eq_right]
    push_cast
    norm_num
  rw [h1]
  have h2 : ((10000 : ℚ) + ((36 : ℕ) : ℚ) * (34000 * (1 + 3/10))) * 2 =
      ((3202400 : ℤ) : ℚ) := by
    push_cast
    norm_num
  rw [h2, Int.ceil_intCast]
  decide

/-- Claim C4 counterexample: at 36 assets the estimate is 1440000, which
lies outside the claimed interval with upper end 1400000. -/
theorem C4_cex : calculateComputeUnits 3 36 = 1440000 ∧
    ¬ (calculateComputeUnits 3 36 ≤ 1400000) := by
  refine ⟨computeUnits_at_36, ?_⟩
  rw [computeUnits_at_36]
  norm_num

/-- Witness instantiating the C4 theorem at concrete counts. -/
theorem C4_witness :
    (calculateComputeUnits 0 1 ≤ calculateComputeUnits 1 1) ∧
    50000 ≤ calculateComputeUnits 0 1 ∧
    calculateComputeUnits 0 1 ≤ 1400000 ∧
    calculateComputeUnits 2 36 = ((36 : ℕ) : ℤ) * 40000 :=
  ⟨(C4_computeUnits_monotone_bounded 0 1 1).1 (by norm_num),
   (C4_computeUnits_monotone_bounded 0 1 1).2.1,
   (C4_computeUnits_monotone_bounded 0 1 1).2.2.1 (by norm_num),
   (C4_computeUnits_monotone_bounded 2 2 36).2.2.2 (by norm_num)⟩

/-- Claim C5: for both dispatch strategies, executing K batches yields
exactly K results, result i has batchIndex i and the type of batch i, and
result i is fully determined by batch i and the outcome of its own
submission, so a failing sibling cannot change it and the run is never
aborted. -/
theorem C5_execution_isolated (batches : List Batch)
    (signedTransactions : List (List Instr))
    (dispatchOutcome : ℕ → Except String String) (i : ℕ)
    (h : i < batches.length) :
    (executeBatchesSequentially batches signedTransactions dispatchOutcome).length
      = batches.length ∧
    (executeBatchesInParallel batches signedTransactions dispatchOutcome).length
      = batches.length ∧
    (executeBatchesSequentially batches signedTransactions dispatchOutcome)[i]? =
      some (expectedExecResult batches[i] i (dispatchOutcome i)) ∧
    (executeBatchesInParallel batches signedTransactions dispatchOutcome)[i]? =
      some (expectedExecResult batches[i] i (dispatchOutcome i)) :=
  ⟨by simp [executeBatchesSequentially],
   by simp [executeBatchesInParallel],
   executeBatchesSequentially_getElem batches signedTransactions dispatchOutcome i h,
   executeBatchesInParallel_getElem batches signedTransactions dispatchOutcome i h⟩

/-- Witness for C5 at a concrete one-batch run with a failing dispatch. -/
theorem C5_witness :
    (executeBatchesSequentially [sampleBatch] [] (fun _ => .error "boom")).length
      = 1 ∧
    (executeBatchesInParallel [sampleBatch] [] (fun _ => .error "boom")).length
      = 1 ∧
    (executeBatchesSequentially [sampleBatch] [] (fun _ => .error "boom"))[0]? =
      some (expectedExecResult sampleBatch 0 (.error "boom")) ∧
    (executeBatchesInParallel [sampleBatch] [] (fun _ => .error "boom"))[0]? =
      some (expectedExecResult sampleBatch 0 (.error "boom")) := by
  have h := C5_execution_isolated [sampleBatch] [] (fun _ => .error "boom") 0
    (by norm_num)
  simpa using h

/-- Claim C6: after execution of a non-empty batch list whose wholesale
signing succeeded, the run carries a batch summary, its success flag is
exactly (successfulBatches == totalBatches), and both counters are
derived from the per-batch results; the run result is returned as a
value in every case. -/
theorem C6_success_iff_all (batches : List Batch)
    (signAllTransactions : List (Option (List Instr)) →
      Except String (List (List Instr)))
    (dispatchOutcome : ℕ → Except String String) (options : Options)
    (signed : List (List Instr))
    (hne : batches ≠ [])
    (hsign : signAllTransactions (batches.map Batch.transaction) = .ok signed) :
    ∃ s, (executeBatchTransactions batches signAllTransactions dispatchOutcome
            options).batchSummary = some s ∧
      (executeBatchTransactions batches signAllTransactions dispatchOutcome
        options).success = (s.successfulBatches == s.totalBatches) ∧
      s.totalBatches = batches.length ∧
      s.successfulBatches =
        ((executeBatchTransactions batches signAllTransactions dispatchOutcome
          options).results.filter (fun result => result.success)).length := by
  unfold executeBatchTransactions
  rw [if_neg (by simpa using hne)]
  simp only []
  rw [hsign]
  simp only []
  exact ⟨_, rfl, rfl, rfl, rfl⟩

/-- Witness for C6: one batch, successful signing, failing dispatch; the
run returns success = false as a value with a 0-of-1 summary. -/
theorem C6_witness :
    ∃ s, (executeBatchTransactions [sampleBatch] (fun _ => .ok [[]])
            (fun _ => .error "boom") defaultOptions).batchSummary = some s ∧
      (executeBatchTransactions [sampleBatch] (fun _ => .ok [[]])
        (fun _ => .error "boom") defaultOptions).success =
        (s.successfulBatches == s.totalBatches) ∧
      s.totalBatches = [sampleBatch].length ∧
      s.successfulBatches =
        ((executeBatchTransactions [sampleBatch] (fun _ => .ok [[]])
          (fun _ => .error "boom") defaultOptions).results.filter
          (fun result => result.success)).length :=
  C6_success_iff_all [sampleBatch] (fun _ => .ok [[]]) (fun _ => .error "boom")
    defaultOptions [[]] (by simp) rfl

/-- Claim C7 (amended): a planning failure makes createBatchTransactions
throw, but performBatchTransfer catches it and returns a success=false
result value, so no exception leaves the bulk-transfer entry point; an
execution failure is converted into a failed per-batch record. -/
theorem C7_failure_containment (chain : Chain) (f d : ℕ)
    (signAllTransactions : List (Option (List Instr)) →
      Except String (List (List Instr)))
    (dispatchOutcome : ℕ → Except String String) (options : Options) :
    (∀ e, createBatchTransactions chain f d options = .error e →
      performBatchTransfer chain f d signAllTransactions dispatchOutcome options =
        .ok { success := false, results := [], batchSummary := none, batches := [],
              totalTokens := 0, solToTransfer := 0, totalTransactionFees := 0 }) ∧
    isOkE (performBatchTransfer chain f d signAllTransactions dispatchOutcome
      options) = true ∧
    (∀ (batches : List Batch) (signed : List (List Instr))
        (o : ℕ → Except String String) (i : ℕ) (e : String),
      o i = .error e → i < batches.length →
      ∃ rres, (executeBatchesSequentially batches signed o)[i]? = some rres ∧
        rres.success = false ∧ rres.error = some e) := by
  refine ⟨?_, ?_, ?_⟩
  · intro e he
    unfold performBatchTransfer
    rw [he]
  · unfold performBatchTransfer
    cases hc : createBatchTransactions chain f d options with
    | error e => simp [isOkE]
    | ok cr =>
        by_cases h0 : cr.batches.length = 0 <;> simp [h0, isOkE]
  · intro batches signed o i e ho hi
    refine ⟨expectedExecResult batches[i] i (o i), ?_, ?_, ?_⟩
    · exact executeBatchesSequentially_getElem batches signed o i hi
    · rw [ho]; rfl
    · rw [ho]; rfl

/-- Claim C7 counterexample: with an unreachable resolver, planning
throws, yet the bulk-transfer entry point returns an ok value with
success=false instead of propagating the exception. -/
theorem C7_cex :
    createBatchTransactions failingChain 1 2 defaultOptions =
      .error "Failed to create batch transactions: rpc down" ∧
    performBatchTransfer failingChain 1 2 (fun _ => .ok []) (fun _ => .ok "sig")
      defaultOptions =
      .ok { success := false, results := [], batchSummary := none, batches := [],
            totalTokens := 0, solToTransfer := 0, totalTransactionFees := 0 } :=
  ⟨rfl, rfl⟩

/-- Witness for C7 at the failing chain and a concrete failing dispatch. -/
theorem C7_witness :
    performBatchTransfer failingChain 1 2 (fun _ => .ok []) (fun _ => .ok "sig")
      defaultOptions =
      .ok { success := false, results := [], batchSummary := none, batches := [],
            totalTokens := 0, solToTransfer := 0, totalTransactionFees := 0 } ∧
    isOkE (performBatchTransfer failingChain 1 2 (fun _ => .ok [])
      (fun _ => .ok "sig") defaultOptions) = true ∧
    (∃ rres, (executeBatchesSequentially [sampleBatch] []
        (fun _ => .error "boom"))[0]? = some rres ∧
      rres.success = false ∧ rres.error = some "boom") :=
  ⟨(C7_failure_containment failingChain 1 2 (fun _ => .ok []) (fun _ => .ok "sig")
      defaultOptions).1 "Failed to create batch transactions: rpc down" rfl,
   (C7_failure_containment failingChain 1 2 (fun _ => .ok []) (fun _ => .ok "sig")
      defaultOptions).2.1,
   (C7_failure_containment failingChain 1 2 (fun _ => .ok []) (fun _ => .ok "sig")
      defaultOptions).2.2 [sampleBatch] [] (fun _ => .error "boom") 0 "boom" rfl
      (by norm_num)⟩

/-- Claim C10: when the caller passes a partial options object such as
including only includeSol=true, the default object is replaced wholesale,
solReserveAmount reads as undefined, the sweep arithmetic yields NaN, the
early return does not fire, the reported solToTransfer is NaN, and no SOL
batch is ever emitted, regardless of the balance, fees, rent and token
count. -/
theorem C10_partial_options_nan_sweep
    (solBalance tokenTransactionFees rentForAssociatedAccounts : ℚ)
    (tokenAccountsCount : ℕ) :
    solSweepJs solBalance tokenTransactionFees rentForAssociatedAccounts
      tokenAccountsCount
      (some { addTxFailed := none, batchSize := none, includeSol := some true,
              solReserveAmount := none, maxTransactionSize := none }) =
      { earlyReturn := false, solToTransfer := JsNum.nan,
        solBatchEmitted := false } := by
  unfold solSweepJs resolveOptionsArg jsTruthy jsField
  simp [JsNum.le, JsNum.sub, jsMathMax0, JsNum.gt]

/-!
Concrete chains and planning runs used by the counterexamples and
witnesses of the planner claims.
-/

/-- A holding of 5 raw units of mint 10 held in account 20. -/
def tinyAccount : TokenAccount := { mint := 10, address := 20, rawAmount := 5 }

/-- A healthy chain with one holding, 2 SOL, existing destination
associated account and zero rent. -/
def cexChain : Chain :=
  { getAllTokenData := .ok (2, [tinyAccount]),
    getAccountInfo := fun _ => .ok (some ()),
    getMinimumBalanceForRentExemption := .ok 0,
    getLatestBlockhash := .ok 1,
    ata := fun mint owner => mint * 1000 + owner,
    createInstrSize := fun _ => 120,
    transferInstrSize := fun _ => 80 }

/-- A chain with no holdings and 1 SOL. -/
def emptyChain : Chain :=
  { getAllTokenData := .ok (1, []),
    getAccountInfo := fun _ => .ok none,
    getMinimumBalanceForRentExemption := .ok 2039280,
    getLatestBlockhash := .ok 1,
    ata := fun mint owner => mint * 1000 + owner,
    createInstrSize := fun _ => 120,
    transferInstrSize := fun _ => 80 }

/-- The default options with the addTxFailed diagnostic disabled. -/
def noFailOptions : Options :=
  { addTxFailed := false, batchSize := 1, includeSol := true,
    solReserveAmount := 1/100, maxTransactionSize := 1200,
    executeInSequence := false }

/-- Options with includeSol disabled and addTxFailed disabled. -/
def noSolOptions : Options :=
  { addTxFailed := false, batchSize := 1, includeSol := false,
    solReserveAmount := 1/100, maxTransactionSize := 1200,
    executeInSequence := false }

/-- The individual token batch the planner builds for tinyAccount on
cexChain (destination account exists, so no create instruction). -/
def cexTokenBatch (i : ℕ) : Batch :=
  { type := .individual_token,
    transaction := some [setComputeUnitPrice 50000,
      setComputeUnitLimit (calculateComputeUnits 1 1),
      { kind := .transfer, size := 80 }],
    instructions := [setComputeUnitPrice 50000,
      setComputeUnitLimit (calculateComputeUnits 1 1),
      { kind := .transfer, size := 80 }],
    accountsProcessed := 1,
    computeUnits := some (calculateComputeUnits 1 1),
    batchIndex := some i,
    mint := some 10,
    solAmount := none }

/-- The SOL sweep batch for the cexChain run. -/
def cexSolBatch : Batch :=
  { type := .sol_transfer,
    transaction := some [{ kind := .systemTransfer, size := SYS_TRANSFER_SIZE }],
    instructions := [],
    accountsProcessed := 0,
    computeUnits := none,
    batchIndex := none,
    mint := none,
    solAmount := some (19899917/10000000) }

lemma cex_citb (i : ℕ) :
    createIndividualTokenBatch cexChain tinyAccount 1 2 1 i = .ok (cexTokenBatch i) :=
  rfl

/-- Concrete value of the estimate at one asset. -/
lemma computeUnits_at_1 : calculateComputeUnits 1 1 = 66000 := by
  unfold calculateComputeUnits
  simp only []
  rw [if_pos trivial, if_neg (by norm_num), if_neg (by norm_num)]
  have h2 : ((10000 : ℚ) + 34000) * (3/2) = ((66000 : ℤ) : ℚ) := by norm_num
  rw [h2, Int.ceil_intCast]
  decide

lemma cex_fees : calculateTotalTransactionFees [cexTokenBatch 0] = 83/10000000 := by
  unfold calculateTotalTransactionFees batchFeeComputeUnits
  simp only [List.foldl, cexTokenBatch]
  rw [computeUnits_at_1]
  norm_num

lemma cex_rent : calculateRentForAssociatedAccounts cexChain [tinyAccount] 2 = 0 := by
  simp [calculateRentForAssociatedAccounts, cexChain, checkExistsOnPendingPromise]

lemma cex_stt :
    max 0 ((2 : ℚ) - 1/100 - 83/10000000 - 0) = 19899917/10000000 := by
  rw [max_eq_right (by norm_num)]
  norm_num

lemma cex_csb :
    createSolTransferBatch 1 2 (19899917/10000000) 1 = .ok cexSolBatch := by
  unfold createSolTransferBatch buildTransaction
  simp only []
  rw [if_pos (by norm_num : (19899917/10000000 : ℚ) > 0)]
  rfl

/-- Full evaluation of the planning run on cexChain with the default
options (addTxFailed on): one token batch, the SOL batch, then the
diagnostic token batch with index 1111111. -/
lemma cexChain_run :
    createBatchTransactions cexChain 1 2 defaultOptions =
      .ok { batches := [cexTokenBatch 0, cexSolBatch, cexTokenBatch 1111111],
            totalTokens := 1,
            solToTransfer := 19899917/10000000,
            totalTransactionFees := calculateTotalTransactionFees
              [cexTokenBatch 0, cexSolBatch, cexTokenBatch 1111111] } := by
  unfold createBatchTransactions
  simp only [defaultOptions]
  rw [show cexChain.getAllTokenData = .ok (2, [tinyAccount]) from rfl]
  simp only []
  rw [if_neg (by simp)]
  unfold createTokenBatchesOnly
  rw [show cexChain.getLatestBlockhash = .ok 1 from rfl]
  simp only []
  rw [show createTokenBatchesGo cexChain 1 2 1 [tinyAccount] 0 = [cexTokenBatch 0]
    from rfl]
  rw [if_pos (by simp : ([tinyAccount] : List TokenAccount).length > 0)]
  rw [cex_fees, cex_rent, cex_stt]
  rw [if_pos ⟨trivial, by norm_num⟩]
  rw [if_pos (by norm_num : (19899917/10000000 : ℚ) > 1/100)]
  rw [cex_csb]
  simp only [List.head?]
  rw [cex_citb 1111111]
  simp only []
  rfl

/-- Full evaluation of the planning run on cexChain with addTxFailed
disabled: one token batch then the SOL batch. -/
lemma cexChain_run_noFail :
    createBatchTransactions cexChain 1 2 noFailOptions =
      .ok { batches := [cexTokenBatch 0, cexSolBatch],
            totalTokens := 1,
            solToTransfer := 19899917/10000000,
            totalTransactionFees := calculateTotalTransactionFees
              [cexTokenBatch 0, cexSolBatch] } := by
  unfold createBatchTransactions
  simp only [noFailOptions]
  rw [show cexChain.getAllTokenData = .ok (2, [tinyAccount]) from rfl]
  simp only []
  rw [if_neg (by simp)]
  unfold createTokenBatchesOnly
  rw [show cexChain.getLatestBlockhash = .ok 1 from rfl]
  simp only []
  rw [show createTokenBatchesGo cexChain 1 2 1 [tinyAccount] 0 = [cexTokenBatch 0]
    from rfl]
  rw [if_pos (by simp : ([tinyAccount] : List TokenAccount).length > 0)]
  rw [cex_fees, cex_rent, cex_stt]
  rw [if_pos ⟨trivial, by norm_num⟩]
  rw [if_pos (by norm_num : (19899917/10000000 : ℚ) > 1/100)]
  rw [cex_csb]
  simp only []
  rw [if_neg (by simp)]
  rfl

lemma except_ok_unique {α : Type} {x : Except String α} {a b : α}
    (h1 : x = .ok a) (h2 : x = .ok b) : a = b := by
  rw [h1] at h2
  injection h2

lemma createSolTransferBatch_ok_elim {f d : ℕ} {amt : ℚ} {blk : ℕ} {sb : Batch}
    (h : createSolTransferBatch f d amt blk = .ok sb) :
    sb.type = .sol_transfer ∧ sb.solAmount = some amt ∧
    ∃ tx, sb.transaction = some tx ∧ serializeLength tx < 1200 := by
  obtain ⟨sb', h', hty, ham, tx, htx, hsz⟩ := createSolTransferBatch_ok f d amt blk
  rw [except_ok_unique h h']
  exact ⟨hty, ham, tx, htx, hsz⟩

/-- Claim C3 (amended): every batch of every successful planning run
serializes strictly below the fixed 1200-byte limit of
validateTransactionSize (the caller-supplied maxTransactionSize option
is never consulted); the token loop is total and keeps exactly the
assets whose individual batch builds, in order, so an oversized asset is
excluded without disturbing its siblings. -/
theorem C3_size_bound_and_isolation :
    (∀ (chain : Chain) (f d : ℕ) (options : Options),
      resBatchesUnder 1200 (createBatchTransactions chain f d options) = true) ∧
    (∀ (chain : Chain) (f d block : ℕ) (accounts : List TokenAccount) (i : ℕ),
      (createTokenBatchesGo chain f d block accounts i).map Batch.mint =
        (accounts.filter (fun ta => tokenBatchFits chain ta f d)).map
          (fun ta => some ta.mint)) := by
  constructor
  · intro chain f d options
    cases hres : createBatchTransactions chain f d options with
    | error e => rfl
    | ok r =>
        simp only [resBatchesUnder]
        rw [List.all_eq_true]
        intro b hb
        rcases createBatchTransactions_ok_cases hres with
          ⟨sb', accounts', hdata', hlen, hcond, hr⟩ |
          ⟨solBalance, accounts, block, solPart, failPart, hdata, hblk, hmain,
            hbatches, _, _, hgate, hngate, haf, hnaf⟩
        · rw [hr] at hb
          simp at hb
        · rw [hbatches] at hb
          rcases List.mem_append.mp hb with hbleft | hbfail
          · rcases List.mem_append.mp hbleft with hbgo | hbsol
            · obtain ⟨ta, _, j, hj⟩ := createTokenBatchesGo_mem hbgo
              obtain ⟨_, _, _, _, _, _, tx, htx, hsz⟩ :=
                createIndividualTokenBatch_ok_shape hj
              simp [batchTxUnder, htx, hsz]
            · by_cases hg : options.includeSol = true ∧ r.solToTransfer > 0 ∧
                  r.solToTransfer > 1/100
              · obtain ⟨sb, hsb, hsp⟩ := hgate hg
                rw [hsp] at hbsol
                simp at hbsol
                obtain ⟨_, _, tx, htx, hsz⟩ := createSolTransferBatch_ok_elim hsb
                simp [hbsol, batchTxUnder, htx, hsz]
              · rw [hngate hg] at hbsol
                simp at hbsol
          · cases haft : options.addTxFailed with
            | false =>
                rw [hnaf haft] at hbfail
                simp at hbfail
            | true =>
                rcases haf haft with ⟨_, hfp⟩ | ⟨ta0, rest, fb, _, hfb, hfp⟩
                · rw [hfp] at hbfail
                  simp at hbfail
                · rw [hfp] at hbfail
                  simp at hbfail
                  obtain ⟨_, _, _, _, _, _, tx, htx, hsz⟩ :=
                    createIndividualTokenBatch_ok_shape hfb
                  simp [hbfail, batchTxUnder, htx, hsz]
  · exact fun chain f d block accounts i =>
      createTokenBatchesGo_mints chain f d block accounts i

/-- Options with a tight caller-supplied byte limit of 500 that the
planner is claimed to honour. -/
def strictOptions : Options :=
  { addTxFailed := false, batchSize := 1, includeSol := false,
    solReserveAmount := 1/100, maxTransactionSize := 500,
    executeInSequence := false }

/-- A chain whose transfer instruction serializes to 600 bytes, so the
single token batch serializes to 749 bytes: below 1200, above 500. -/
def oversizeChain : Chain :=
  { getAllTokenData := .ok (0, [tinyAccount]),
    getAccountInfo := fun _ => .ok (some ()),
    getMinimumBalanceForRentExemption := .ok 0,
    getLatestBlockhash := .ok 1,
    ata := fun mint owner => mint * 1000 + owner,
    createInstrSize := fun _ => 120,
    transferInstrSize := fun _ => 600 }

/-- Claim C3 counterexample: with maxTransactionSize set to 500 the
planner still emits a batch of 749 serialized bytes, because the size
validation compares against the constant 1200, not the option. -/
theorem C3_cex :
    resBatchesUnder strictOptions.maxTransactionSize
      (createBatchTransactions oversizeChain 1 2 strictOptions) = false := rfl

/-- Claim C1 (amended): with the addTxFailed diagnostic disabled and
every holding's batch buildable, planning emits exactly one individual
token batch per holding, and every individual token batch contains at
most one create instruction, exactly one transfer instruction and no
close instruction. -/
theorem C1_batch_per_asset (chain : Chain) (f d : ℕ) (options : Options)
    (solBalance : ℚ) (accounts : List TokenAccount) (r : CreateResult)
    (hdata : chain.getAllTokenData = .ok (solBalance, accounts))
    (hfail : options.addTxFailed = false)
    (_hpos : ∀ ta ∈ accounts, 0 < ta.rawAmount)
    (hfits : ∀ ta ∈ accounts, tokenBatchFits chain ta f d = true)
    (hres : createBatchTransactions chain f d options = .ok r) :
    (r.batches.filter (fun b => b.type == BatchType.individual_token)).length =
      accounts.length ∧
    ∀ b ∈ r.batches, b.type = BatchType.individual_token →
      countKind InstrKind.createAssociatedTokenAccount b.instructions ≤ 1 ∧
      countKind InstrKind.transfer b.instructions = 1 ∧
      countKind InstrKind.closeAccount b.instructions = 0 := by
  rcases createBatchTransactions_ok_cases hres with
    ⟨sb', accounts', hdata', hlen, hcond, hr⟩ |
    ⟨sb', accounts', block, solPart, failPart, hdata', hblk, hmain, hbatches,
      _, _, hgate, hngate, haf, hnaf⟩
  · have hp := except_ok_unique hdata hdata'
    injection hp with hp1 hp2
    subst hp2
    subst hr
    refine ⟨by simpa using hlen.symm, ?_⟩
    intro b hb
    simp at hb
  · have hp := except_ok_unique hdata hdata'
    injection hp with hp1 hp2
    subst hp2
    rw [hnaf hfail] at hbatches
    simp only [List.append_nil] at hbatches
    have hgoall : ∀ b ∈ createTokenBatchesGo chain f d block accounts 0,
        (b.type == BatchType.individual_token) = true := by
      intro b hb
      rw [createTokenBatchesGo_type hb]
      rfl
    have hsolf :
        (solPart.filter (fun b => b.type == BatchType.individual_token)) = [] := by
      by_cases hg : options.includeSol = true ∧ r.solToTransfer > 0 ∧
          r.solToTransfer > 1/100
      · obtain ⟨sb, hsb, hsp⟩ := hgate hg
        rw [hsp]
        have hty := (createSolTransferBatch_ok_elim hsb).1
        simp [hty]
      · rw [hngate hg]
        rfl
    constructor
    · rw [hbatches, List.filter_append, List.filter_eq_self.mpr hgoall, hsolf,
        List.append_nil]
      exact createTokenBatchesGo_length_allOk hfits
    · intro b hb hbty
      rw [hbatches] at hb
      rcases List.mem_append.mp hb with hbgo | hbsol
      · obtain ⟨ta, _, j, hj⟩ := createTokenBatchesGo_mem hbgo
        have hs := createIndividualTokenBatch_ok_shape hj
        exact ⟨hs.2.2.2.1, hs.2.2.2.2.1, hs.2.2.2.2.2.1⟩
      · by_cases hg : options.includeSol = true ∧ r.solToTransfer > 0 ∧
            r.solToTransfer > 1/100
        · obtain ⟨sb, hsb, hsp⟩ := hgate hg
          rw [hsp] at hbsol
          simp at hbsol
          have hty := (createSolTransferBatch_ok_elim hsb).1
          rw [hbsol] at hbty
          rw [hty] at hbty
          simp at hbty
        · rw [hngate hg] at hbsol
          simp at hbsol

/-- Claim C1 counterexample: on a one-holding chain with the documented
default options (addTxFailed true), the run reports totalTokens = 1 but
contains two individual token batches. -/
theorem C1_cex :
    ∃ r, createBatchTransactions cexChain 1 2 defaultOptions = .ok r ∧
      r.totalTokens = 1 ∧
      (r.batches.filter (fun b => b.type == BatchType.individual_token)).length
        = 2 :=
  ⟨_, cexChain_run, rfl, rfl⟩

/-- Witness for the amended C1 on the concrete one-holding chain with
addTxFailed disabled. -/
theorem C1_witness :
    ∃ r, createBatchTransactions cexChain 1 2 noFailOptions = .ok r ∧
      (r.batches.filter (fun b => b.type == BatchType.individual_token)).length
        = ([tinyAccount] : List TokenAccount).length ∧
      ∀ b ∈ r.batches, b.type = BatchType.individual_token →
        countKind InstrKind.createAssociatedTokenAccount b.instructions ≤ 1 ∧
        countKind InstrKind.transfer b.instructions = 1 ∧
        countKind InstrKind.closeAccount b.instructions = 0 := by
  obtain ⟨h1, h2⟩ := C1_batch_per_asset cexChain 1 2 noFailOptions 2 [tinyAccount]
    _ rfl rfl
    (by intro ta h; simp at h; subst h; norm_num [tinyAccount])
    (by intro ta h; simp at h; subst h; rfl)
    cexChain_run_noFail
  exact ⟨_, cexChain_run_noFail, h1, h2⟩

/-- Claim C2 (amended): outside the early nothing-to-transfer return, the
reported solToTransfer equals
max(0, balance - reserve - tokenBatchFees - rentCharged), and a SOL batch
is in the batch list exactly when includeSol is set and that amount
exceeds the 0.01 dust threshold. The charged rent is not rent for the
to-be-created accounts only: because the rent loop never awaits the
address derivation, its existence check reports every destination account
missing, so whenever the rent query succeeds the charge is the
rent-exempt balance times the number of all holdings (last conjunct). -/
theorem C2_sweep_formula (chain : Chain) (f d : ℕ) (options : Options)
    (solBalance : ℚ) (accounts : List TokenAccount) (block : ℕ) (r : CreateResult)
    (hdata : chain.getAllTokenData = .ok (solBalance, accounts))
    (hblk : chain.getLatestBlockhash = .ok block)
    (hmain : ¬ (accounts.length = 0 ∧
      (options.includeSol = false ∨ solBalance ≤ options.solReserveAmount)))
    (hres : createBatchTransactions chain f d options = .ok r) :
    r.solToTransfer = max 0 (solBalance - options.solReserveAmount
      - calculateTotalTransactionFees (createTokenBatchesGo chain f d block accounts 0)
      - calculateRentForAssociatedAccounts chain accounts d) ∧
    ((∃ b ∈ r.batches, b.type = BatchType.sol_transfer) ↔
      (options.includeSol = true ∧ r.solToTransfer > 1/100)) ∧
    (∀ rb : ℕ, chain.getMinimumBalanceForRentExemption = .ok rb →
      calculateRentForAssociatedAccounts chain accounts d =
        ((rb * accounts.length : ℕ) : ℚ) / 1000000000) := by
  have hrent : ∀ rb : ℕ, chain.getMinimumBalanceForRentExemption = .ok rb →
      calculateRentForAssociatedAccounts chain accounts d =
        ((rb * accounts.length : ℕ) : ℚ) / 1000000000 := by
    intro rb hrb
    unfold calculateRentForAssociatedAccounts
    rw [hrb]
    simp [checkExistsOnPendingPromise]
  rcases createBatchTransactions_ok_cases hres with
    ⟨sb', accounts', hdata', hlen, hcond, hr⟩ |
    ⟨sb', accounts', block', solPart, failPart, hdata', hblk', hmain', hbatches,
      _, hstt, hgate, hngate, haf, hnaf⟩
  · have hp := except_ok_unique hdata hdata'
    injection hp with hp1 hp2
    subst hp1
    subst hp2
    exact absurd ⟨hlen, hcond⟩ hmain
  · have hp := except_ok_unique hdata hdata'
    injection hp with hp1 hp2
    subst hp1
    subst hp2
    have hb := except_ok_unique hblk hblk'
    subst hb
    refine ⟨hstt, ?_, hrent⟩
    constructor
    · rintro ⟨b, hb, hbty⟩
      rw [hbatches] at hb
      have hsolne : solPart ≠ [] := by
        rcases List.mem_append.mp hb with hbleft | hbfail
        · rcases List.mem_append.mp hbleft with hbgo | hbsol
          · have := createTokenBatchesGo_type hbgo
            rw [this] at hbty
            simp at hbty
          · intro hemp
            rw [hemp] at hbsol
            simp at hbsol
        · cases haft : options.addTxFailed with
          | false =>
              rw [hnaf haft] at hbfail
              simp at hbfail
          | true =>
              rcases haf haft with ⟨_, hfp⟩ | ⟨ta0, rest, fb, _, hfb, hfp⟩
              · rw [hfp] at hbfail
                simp at hbfail
              · rw [hfp] at hbfail
                simp at hbfail
                have := (createIndividualTokenBatch_ok_shape hfb).1
                rw [hbfail, this] at hbty
                simp at hbty
      by_cases hg : options.includeSol = true ∧ r.solToTransfer > 0 ∧
          r.solToTransfer > 1/100
      · exact ⟨hg.1, hg.2.2⟩
      · exact absurd (hngate hg) hsolne
    · rintro ⟨hinc, hgt⟩
      have hg : options.includeSol = true ∧ r.solToTransfer > 0 ∧
          r.solToTransfer > 1/100 :=
        ⟨hinc, lt_trans (by norm_num) hgt, hgt⟩
      obtain ⟨sb, hsb, hsp⟩ := hgate hg
      refine ⟨sb, ?_, (createSolTransferBatch_ok_elim hsb).1⟩
      rw [hbatches, hsp]
      simp

/-- A chain with one holding whose destination associated account exists
and with a positive rent-exempt balance. -/
def rentChain : Chain :=
  { getAllTokenData := .ok (2, [tinyAccount]),
    getAccountInfo := fun _ => .ok (some ()),
    getMinimumBalanceForRentExemption := .ok 2039280,
    getLatestBlockhash := .ok 1,
    ata := fun mint owner => mint * 1000 + owner,
    createInstrSize := fun _ => 120,
    transferInstrSize := fun _ => 80 }

/-- Claim C2 counterexample, two divergences. First, on the no-holdings
chain with includeSol false, the early return reports solToTransfer = 0
although the claimed formula evaluates to 0.99. Second, the rent term is
not rent for new accounts: on a chain whose (awaited) existence check
confirms the destination associated account exists, the rent loop still
charges one full rent, because the un-awaited address promise makes its
own existence check report the account missing. -/
theorem C2_cex :
    (createBatchTransactions emptyChain 1 2 noSolOptions =
      .ok { batches := [], totalTokens := 0, solToTransfer := 0,
            totalTransactionFees := 0 } ∧
     max 0 ((1 : ℚ) - noSolOptions.solReserveAmount
       - calculateTotalTransactionFees (createTokenBatchesGo emptyChain 1 2 1 [] 0)
       - calculateRentForAssociatedAccounts emptyChain [] 2) = 99/100 ∧
     (0 : ℚ) ≠ 99/100) ∧
    (checkAssociatedTokenAccountExists rentChain
       (getAssociatedTokenAddress rentChain tinyAccount.mint 2) = true ∧
     calculateRentForAssociatedAccounts rentChain [tinyAccount] 2 =
       2039280/1000000000 ∧
     (2039280/1000000000 : ℚ) ≠ 0) := by
  refine ⟨⟨rfl, ?_, by norm_num⟩, ⟨rfl, ?_, by norm_num⟩⟩
  · have hf : calculateTotalTransactionFees (createTokenBatchesGo emptyChain 1 2 1 [] 0)
        = 0 := rfl
    have hr : calculateRentForAssociatedAccounts emptyChain [] 2 = 0 := by
      simp [calculateRentForAssociatedAccounts, emptyChain]
    rw [hf, hr]
    rw [show noSolOptions.solReserveAmount = 1/100 from rfl]
    rw [max_eq_right (by norm_num)]
    norm_num
  · unfold calculateRentForAssociatedAccounts
    rw [show rentChain.getMinimumBalanceForRentExemption = .ok 2039280 from rfl]
    simp [checkExistsOnPendingPromise]

/-- Witness for the amended C2 on the concrete one-holding chain. -/
theorem C2_witness :
    ∃ r, createBatchTransactions cexChain 1 2 defaultOptions = .ok r ∧
      r.solToTransfer = max 0 ((2 : ℚ) - defaultOptions.solReserveAmount
        - calculateTotalTransactionFees
            (createTokenBatchesGo cexChain 1 2 1 [tinyAccount] 0)
        - calculateRentForAssociatedAccounts cexChain [tinyAccount] 2) ∧
      ((∃ b ∈ r.batches, b.type = BatchType.sol_transfer) ↔
        (defaultOptions.includeSol = true ∧ r.solToTransfer > 1/100)) ∧
      calculateRentForAssociatedAccounts cexChain [tinyAccount] 2 =
        ((0 * ([tinyAccount] : List TokenAccount).length : ℕ) : ℚ) / 1000000000 := by
  obtain ⟨h1, h2, h3⟩ := C2_sweep_formula cexChain 1 2 defaultOptions 2 [tinyAccount] 1
    _ rfl rfl (by simp) cexChain_run
  exact ⟨_, cexChain_run, h1, h2, h3 0 rfl⟩

/-- Claim C8 (amended): with the addTxFailed diagnostic disabled and
every holding's batch buildable, the batch list carries at most one SOL
batch, a SOL batch can only sit at the last position, and the individual
token batches appear in the order the holdings were resolved. -/
theorem C8_ordering (chain : Chain) (f d : ℕ) (options : Options)
    (solBalance : ℚ) (accounts : List TokenAccount) (r : CreateResult)
    (hdata : chain.getAllTokenData = .ok (solBalance, accounts))
    (hfail : options.addTxFailed = false)
    (hfits : ∀ ta ∈ accounts, tokenBatchFits chain ta f d = true)
    (hres : createBatchTransactions chain f d options = .ok r) :
    (r.batches.filter (fun b => b.type == BatchType.sol_transfer)).length ≤ 1 ∧
    (∀ i b, r.batches[i]? = some b → b.type = BatchType.sol_transfer →
      i + 1 = r.batches.length) ∧
    (r.batches.filter (fun b => b.type == BatchType.individual_token)).map
      Batch.mint = accounts.map (fun ta => some ta.mint) := by
  rcases createBatchTransactions_ok_cases hres with
    ⟨sb', accounts', hdata', hlen, hcond, hr⟩ |
    ⟨sb', accounts', block, solPart, failPart, hdata', hblk, hmain, hbatches,
      _, _, hgate, hngate, haf, hnaf⟩
  · have hp := except_ok_unique hdata hdata'
    injection hp with hp1 hp2
    subst hp2
    subst hr
    have hacc : accounts = [] := List.length_eq_zero.mp hlen
    subst hacc
    refine ⟨by simp, ?_, by simp⟩
    intro i b hb hbty
    simp at hb
  · have hp := except_ok_unique hdata hdata'
    injection hp with hp1 hp2
    subst hp2
    rw [hnaf hfail] at hbatches
    simp only [List.append_nil] at hbatches
    have hgoall : ∀ b ∈ createTokenBatchesGo chain f d block accounts 0,
        (b.type == BatchType.individual_token) = true := by
      intro b hb
      rw [createTokenBatchesGo_type hb]
      rfl
    have hgonosol : ∀ b ∈ createTokenBatchesGo chain f d block accounts 0,
        ¬ (b.type == BatchType.sol_transfer) = true := by
      intro b hb
      rw [createTokenBatchesGo_type hb]
      simp
    have hmintsfull :
        ((createTokenBatchesGo chain f d block accounts 0).map Batch.mint) =
          accounts.map (fun ta => some ta.mint) := by
      rw [createTokenBatchesGo_mints chain f d block accounts 0,
        List.filter_eq_self.mpr hfits]
    by_cases hg : options.includeSol = true ∧ r.solToTransfer > 0 ∧
        r.solToTransfer > 1/100
    · obtain ⟨sb, hsb, hsp⟩ := hgate hg
      subst hsp
      have hty := (createSolTransferBatch_ok_elim hsb).1
      refine ⟨?_, ?_, ?_⟩
      · rw [hbatches, List.filter_append, List.filter_eq_nil_iff.mpr hgonosol]
        simp [hty]
      · intro i b hb hbty
        rw [hbatches] at hb
        have hilen : i < (createTokenBatchesGo chain f d block accounts 0).length
            + 1 := by
          have := (List.getElem?_eq_some.mp hb).1
          simpa using this
        rcases Nat.lt_or_ge i
            (createTokenBatchesGo chain f d block accounts 0).length with hlt | hge
        · exfalso
          rw [List.getElem?_append, if_pos hlt, List.getElem?_eq_getElem hlt] at hb
          injection hb with hb
          have hmem := List.getElem_mem hlt
          rw [hb] at hmem
          have := createTokenBatchesGo_type hmem
          rw [this] at hbty
          simp at hbty
        · rw [hbatches]
          simp only [List.length_append, List.length_cons, List.length_nil]
          omega
      · rw [hbatches, List.filter_append, List.filter_eq_self.mpr hgoall]
        have : ([sb].filter (fun b => b.type == BatchType.individual_token)) = [] := by
          simp [hty]
        rw [this, List.append_nil]
        exact hmintsfull
    · rw [hngate hg] at hbatches
      simp only [List.append_nil] at hbatches
      refine ⟨?_, ?_, ?_⟩
      · rw [hbatches, List.filter_eq_nil_iff.mpr hgonosol]
        simp
      · intro i b hb hbty
        exfalso
        have := (List.getElem?_eq_some.mp hb).1
        rw [List.getElem?_eq_getElem this] at hb
        injection hb with hb
        have hmem := List.getElem_mem this
        rw [hb] at hmem
        rw [hbatches] at hmem
        have := createTokenBatchesGo_type hmem
        rw [this] at hbty
        simp at hbty
      · rw [hbatches, List.filter_eq_self.mpr hgoall]
        exact hmintsfull

/-- Claim C8 counterexample: with the default options on a one-holding
chain, the SOL batch sits in the middle and the diagnostic individual
token batch is the last element. -/
theorem C8_cex :
    ∃ r, createBatchTransactions cexChain 1 2 defaultOptions = .ok r ∧
      r.batches.length = 3 ∧
      (∃ b, r.batches[1]? = some b ∧ b.type = BatchType.sol_transfer) ∧
      (∃ bl, r.batches.getLast? = some bl ∧
        bl.type = BatchType.individual_token) :=
  ⟨_, cexChain_run, rfl, ⟨cexSolBatch, rfl, rfl⟩, ⟨cexTokenBatch 1111111, rfl, rfl⟩⟩

/-- Witness for the amended C8 on the concrete one-holding chain with
addTxFailed disabled. -/
theorem C8_witness :
    ∃ r, createBatchTransactions cexChain 1 2 noFailOptions = .ok r ∧
      (r.batches.filter (fun b => b.type == BatchType.sol_transfer)).length ≤ 1 ∧
      (∀ i b, r.batches[i]? = some b → b.type = BatchType.sol_transfer →
        i + 1 = r.batches.length) ∧
      (r.batches.filter (fun b => b.type == BatchType.individual_token)).map
        Batch.mint = ([tinyAccount] : List TokenAccount).map
          (fun ta => some ta.mint) := by
  obtain ⟨h1, h2, h3⟩ := C8_ordering cexChain 1 2 noFailOptions 2 [tinyAccount]
    _ rfl rfl
    (by intro ta h; simp at h; subst h; rfl)
    cexChain_run_noFail
  exact ⟨_, cexChain_run_noFail, h1, h2, h3⟩

end Soldump
